import Mathlib

/-!
Shallow embedding of the voice-call orchestration plugin
(call state machine, audio codec/resampler, audio bridge,
call manager, webhook handler) and proofs of the spec claims.

Modelling conventions:
* 16-bit PCM buffers are modelled as lists of samples (`List Int`);
  `writeInt16LE`/`readInt16LE` pairs are inverse for in-range samples,
  so the byte-level buffer is abstracted to the sample level.
* μ-law byte buffers are `List Nat` (each element a byte 0..255).
* JavaScript 32-bit bitwise operations are mirrored exactly where they
  occur; for values already in [0, 255], `~x & 0xff` equals `255 - x`.
* Floating point arithmetic in the resampler is modelled over ℚ; for the
  rate ratios the claims concern (2, 1/2, 1) every JS float operation
  involved is exact, so ℚ agrees with the source's doubles.
-/

namespace VoiceCall

/-! ## Call state machine (src/call-state-machine.ts) -/

inductive CallState
  | ringing
  | answering
  | connected
  | hold
  | ending
  | ended
  | failed
deriving DecidableEq, Repr, Fintype

open CallState

/-- Valid state transitions table, verbatim from VALID_TRANSITIONS. -/
def VALID_TRANSITIONS : CallState → List CallState
  | ringing => [answering, ending, failed]
  | answering => [connected, ending, failed]
  | connected => [hold, ending, failed]
  | hold => [connected, ending, failed]
  | ending => [ended, failed]
  | ended => []
  | failed => []

/-- Printable state name, used only to build the error message string. -/
def callStateName : CallState → String
  | ringing => "ringing"
  | answering => "answering"
  | connected => "connected"
  | hold => "hold"
  | ending => "ending"
  | ended => "ended"
  | failed => "failed"

/-- CallStateMachine: current state plus append-only history of
transitions, each recorded as (from, to, timestamp). -/
structure StateMachine where
  state : CallState
  history : List (CallState × CallState × Int)
deriving DecidableEq, Repr

def StateMachine.isTerminal (m : StateMachine) : Bool :=
  m.state = ended || m.state = failed

def StateMachine.canTransition (m : StateMachine) (tgt : CallState) : Bool :=
  (VALID_TRANSITIONS m.state).contains tgt

/-- Pure form of canTransition used to state the transition-table claim. -/
def canTransitionFrom (s tgt : CallState) : Bool :=
  (VALID_TRANSITIONS s).contains tgt

/-- transition(to): mutate state and append history, or throw
(modelled as Except.error) when the transition is not permitted.
The timestamp argument stands for Date.now(). -/
def StateMachine.transition (m : StateMachine) (tgt : CallState) (now : Int) :
    Except String StateMachine :=
  if m.canTransition tgt then
    .ok { state := tgt, history := m.history ++ [(m.state, tgt, now)] }
  else
    .error ("Invalid call state transition: " ++ callStateName m.state
      ++ " -> " ++ callStateName tgt)

/-! ## μ-law codec (src/audio-bridge.ts lines 5-58) -/

/-- MULAW_DECODE_TABLE[i]: standard ITU-T G.711 expansion, built from
the index exactly as the source's buildMulawTable loop does.
In JS, (~i & 0xff) = 255 - i % 256. -/
def mulawDecodeTable (i : Nat) : Int :=
  let mulaw := 0xff - i % 256
  let sign := mulaw &&& 0x80
  let exponent := (mulaw >>> 4) &&& 0x07
  let mantissa0 := mulaw &&& 0x0f
  let mantissa1 := (mantissa0 <<< 1) ||| 0x21
  let mantissa2 := mantissa1 <<< exponent
  let mval : Int := (mantissa2 : Int) - 0x21
  if sign ≠ 0 then -mval else mval

/-- The exponent-search loop of encodeMulaw:
for (exponent = 7; exponent > 0; exponent--) { if (s & 0x4000) break; s <<= 1 }. -/
def mulawExpLoop : Nat → Nat → Nat × Nat
  | 0, s => (0, s)
  | e + 1, s => if s &&& 0x4000 ≠ 0 then (e + 1, s) else mulawExpLoop e (s <<< 1)

/-- encodeMulaw: 16-bit linear sample to 8-bit μ-law code.
The final (~x & 0xff) is written 0xff - x: the composed value
sign | exponent<<4 | mantissa is always ≤ 255. -/
def encodeMulaw (sample : Int) : Nat :=
  let sign : Nat := if sample < 0 then 0x80 else 0
  let s0 : Int := if sample < 0 then -sample else sample
  let s1 : Int := min s0 0x1fff
  let s2 : Nat := (s1 + 33).toNat
  let p := mulawExpLoop 7 s2
  let exponent := p.1
  let sFinal := p.2
  let mantissa := (sFinal >>> (exponent + 3)) &&& 0x0f
  0xff - (sign ||| (exponent <<< 4) ||| mantissa)

/-- mulawToPcm: map each μ-law byte through the decode table. -/
def mulawToPcm (mulaw : List Nat) : List Int :=
  mulaw.map mulawDecodeTable

/-- pcmToMulaw: encode each 16-bit sample to a μ-law byte. -/
def pcmToMulaw (pcm : List Int) : List Nat :=
  pcm.map encodeMulaw

/-! ## Resampler (src/audio-bridge.ts lines 61-72) -/

/-- resample: simple nearest-sample rate conversion. The source returns
the input buffer itself when the rates agree; otherwise it allocates
floor(inputSamples * ratio) output samples, each copied from
min(floor(i / ratio), inputSamples - 1). -/
def resample (input : List Int) (fromRate toRate : Nat) : List Int :=
  if fromRate = toRate then input
  else
    let rq : ℚ := (toRate : ℚ) / (fromRate : ℚ)
    let inputSamples := input.length
    let outputSamples := ⌊(inputSamples : ℚ) * rq⌋₊
    (List.range outputSamples).map (fun (i : Nat) =>
      let srcIdx := min ⌊(i : ℚ) / rq⌋₊ (inputSamples - 1)
      input.getD srcIdx 0)

/-! ## AudioBridge (src/audio-bridge.ts)

The bridge's mutable booleans become a state record; its external
side effects (sending decoded audio to the STT session, firing the
call-end callback, cleanup) become an ordered action trace so that
intra-invocation ordering is provable. Base64 transport encoding is
abstracted: a media message carries the decoded chunk bytes, `none`
standing for a missing/empty (falsy) chunk string. -/

inductive Track
  | inbound
  | outbound
deriving DecidableEq, Repr

inductive MediaMsg
  | start (streamId : Option String)
  | media (track : Track) (chunk : Option (List Nat))
  | stop
  | mark
deriving DecidableEq, Repr

structure BridgeState where
  streamId : Option String
  sttActive : Bool
  playing : Bool
  interrupted : Bool
  closed : Bool
  callEndFired : Bool
deriving DecidableEq, Repr

inductive BridgeAction
  | interruptPlayback
  | sendSTT (pcm : List Int)
  | startSTT
  | cleanup
  | fireCallEnd
deriving DecidableEq, Repr

/-- telnyxSampleRate from AudioBridgeConfig (default 8000). Other config
fields (sttBufferMs etc.) are unread by the bridge code and elided. -/
structure AudioBridgeConfig where
  telnyxSampleRate : Nat
deriving DecidableEq, Repr

/-- handleMediaMessage: dispatch on a Telnyx media WS message.
sttAvailable models whether getSTT() returns a provider (start case).
Mirrors the source switch statement; the action list records the
side effects in the order the source performs them. -/
def handleMediaMessage (cfg : AudioBridgeConfig) (sttAvailable : Bool)
    (b : BridgeState) (msg : MediaMsg) : BridgeState × List BridgeAction :=
  if b.closed then (b, [])
  else
    match msg with
    | .start sid =>
        ({ b with streamId := sid, sttActive := sttAvailable }, [.startSTT])
    | .media track chunk =>
        if track = .inbound then
          match chunk with
          | some bytes =>
              -- Barge-in detection: if caller speaks while TTS is playing, interrupt
              let (b1, trInterrupt) :=
                if b.playing then
                  ({ b with interrupted := true, playing := false }, [.interruptPlayback])
                else (b, ([] : List BridgeAction))
              let pcm := mulawToPcm bytes
              let resampled := resample pcm cfg.telnyxSampleRate 16000
              -- this.sttSession?.sendAudio(resampled)
              let trSend := if b1.sttActive then [.sendSTT resampled] else []
              (b1, trInterrupt ++ trSend)
          | none => (b, [])
        else (b, [])
    | .stop =>
        let b1 := { b with closed := true, playing := false, sttActive := false }
        if b1.callEndFired then (b1, [.cleanup])
        else ({ b1 with callEndFired := true }, [.cleanup, .fireCallEnd])
    | .mark => (b, [])

/-! ## CallManager (src/call-manager.ts)

The Map of active calls becomes an association list keyed by the
carrier call-control ID (keys unique by construction). External side
effects — repository insert/update, carrier hangup, bridge cleanup,
event emission — become an ordered action trace; fallible external
operations take a Bool parameter for their success. Event payloads are
elided where no claim depends on them (the trace records which event
fired for which call). The per-call AudioBridge object is represented
only by its cleanup action. -/

structure CallRecord where
  id : String
  telnyxCallControlId : String
  telnyxCallLegId : String
  direction : String
  callFrom : String
  callTo : String
  tenantId : String
  sessionId : String
  state : CallState
  startedAt : Int
  connectedAt : Option Int
  endedAt : Option Int
  endReason : Option String
  recording : Bool
  durationMs : Option Int
deriving DecidableEq, Repr

structure ActiveCall where
  record : CallRecord
  fsm : StateMachine
deriving DecidableEq, Repr

structure CMState where
  activeCalls : List (String × ActiveCall)
  maxConcurrent : Nat
deriving DecidableEq, Repr

/-- Map.set: replace the binding when the key exists, else append. -/
def mapSet (m : List (String × ActiveCall)) (k : String) (v : ActiveCall) :
    List (String × ActiveCall) :=
  if (m.lookup k).isSome then
    m.map (fun p => if p.1 = k then (k, v) else p)
  else m ++ [(k, v)]

/-- Map.delete: drop the binding for the key. -/
def mapDelete (m : List (String × ActiveCall)) (k : String) :
    List (String × ActiveCall) :=
  m.filter (fun p => p.1 ≠ k)

inductive CMAction
  | removeFromRegistry (callControlId : String)
  | fsmStep (src tgt : CallState)
  | telnyxHangup (callControlId : String)
  | bridgeCleanup (callControlId : String)
  | persistInsert (recordId : String)
  | persistUpdate (recordId : String)
  | emitStarted (callId : String)
  | emitEnded (callId : String)
deriving DecidableEq, Repr

/-- Recognizer for "call ended" event emissions in an action trace. -/
def CMAction.isEmitEnded : CMAction → Bool
  | .emitEnded _ => true
  | _ => false

/-- Recognizer for persistence updates in an action trace. -/
def CMAction.isPersistUpdate : CMAction → Bool
  | .persistUpdate _ => true
  | _ => false

def CMState.activeCallCount (st : CMState) : Nat :=
  st.activeCalls.length

def canAcceptCall (st : CMState) : Bool :=
  st.activeCalls.length < st.maxConcurrent

/-- Build the fresh CallRecord used by both registration paths.
randomUUID() and Date.now() become the newCallId / now parameters. -/
def freshRecord (newCallId callControlId callLegId direction fromNum toNum
    tenantId : String) (now : Int) (recordByDefault : Bool) : CallRecord :=
  { id := newCallId
    telnyxCallControlId := callControlId
    telnyxCallLegId := callLegId
    direction := direction
    callFrom := fromNum
    callTo := toNum
    tenantId := tenantId
    sessionId := "voice-call-" ++ newCallId
    state := ringing
    startedAt := now
    connectedAt := none
    endedAt := none
    endReason := none
    recording := recordByDefault
    durationMs := none }

/-- registerInboundCall: reject at capacity; else build the record and
state machine, add the handle to the registry, persist, emit the
started event. persistOk / emitOk model whether repo.insert and
events.emitCustom succeed; on a throw from either, the handle is
deleted, the bridge cleaned up, and null (none) is returned. -/
def registerInboundCall (st : CMState) (callControlId callLegId fromNum toNum
    tenantId newCallId : String) (now : Int) (recordByDefault : Bool)
    (persistOk emitOk : Bool) :
    CMState × Option ActiveCall × List CMAction :=
  if ¬ canAcceptCall st then (st, none, [])
  else
    let record := freshRecord newCallId callControlId callLegId "inbound"
      fromNum toNum tenantId now recordByDefault
    let fsm : StateMachine := { state := ringing, history := [] }
    let activeCall : ActiveCall := { record := record, fsm := fsm }
    let st1 : CMState := { st with activeCalls := mapSet st.activeCalls callControlId activeCall }
    if persistOk then
      if emitOk then
        (st1, some activeCall, [.persistInsert record.id, .emitStarted record.id])
      else
        -- emit threw inside the same try: clean up the orphaned handle+bridge
        ({ st1 with activeCalls := mapDelete st1.activeCalls callControlId },
          none, [.persistInsert record.id, .bridgeCleanup callControlId])
    else
      -- insert threw: clean up the orphaned handle+bridge, return null
      ({ st1 with activeCalls := mapDelete st1.activeCalls callControlId },
        none, [.bridgeCleanup callControlId])

/-- initiateOutboundCall: throws (Except.error) at capacity; else adds
the handle, then awaits repo.insert and the started event with no
try/catch — an insert failure propagates while the handle stays
registered. -/
def initiateOutboundCall (st : CMState) (toNum fromNum tenantId : String)
    (callControlId callLegId newCallId : String) (now : Int)
    (recordByDefault : Bool) (persistOk : Bool) :
    CMState × Except String ActiveCall × List CMAction :=
  if ¬ canAcceptCall st then
    (st, .error "Max concurrent calls reached, cannot initiate outbound call", [])
  else
    let record := freshRecord newCallId callControlId callLegId "outbound"
      fromNum toNum tenantId now recordByDefault
    let fsm : StateMachine := { state := ringing, history := [] }
    let activeCall : ActiveCall := { record := record, fsm := fsm }
    let st1 : CMState := { st with activeCalls := mapSet st.activeCalls callControlId activeCall }
    if persistOk then
      (st1, .ok activeCall, [.persistInsert record.id, .emitStarted record.id])
    else
      -- repo.insert rejected: the error propagates, st1 keeps the handle
      (st1, .error "insert failed", [])

/-- transitionCall: total (never throws). Unknown id: no-op. Illegal
transition: no-op with a warning. Otherwise step the state machine,
mirror the state into the record, and set connectedAt on the first
transition into connected. -/
def transitionCall (st : CMState) (callControlId : String) (newState : CallState)
    (now : Int) : CMState :=
  match st.activeCalls.lookup callControlId with
  | none => st
  | some call =>
      if ¬ call.fsm.canTransition newState then st
      else
        let fsm1 : StateMachine :=
          { state := newState, history := call.fsm.history ++ [(call.fsm.state, newState, now)] }
        let updRecord := { call.record with state := fsm1.state }
        let updRecord2 :=
          if newState = CallState.connected ∧ updRecord.connectedAt = (none : Option Int) then
            { updRecord with connectedAt := some now }
          else updRecord
        let call1 : ActiveCall := { record := updRecord2, fsm := fsm1 }
        { st with activeCalls := mapSet st.activeCalls callControlId call1 }

/-- endCall: idempotent call teardown. The handle is deleted from the
registry first; hasTelnyx models whether a TelnyxClient was supplied;
a hangup failure is caught and logged, so hangup is just a trace
action. Returns the new state and the ordered action trace. -/
def endCall (st : CMState) (callControlId reason : String) (now : Int)
    (skipTelnyxHangup : Bool) (hasTelnyx : Bool) : CMState × List CMAction :=
  match st.activeCalls.lookup callControlId with
  | none => (st, [])
  | some call =>
      -- Idempotence guard: remove from map immediately
      let st1 : CMState := { st with activeCalls := mapDelete st.activeCalls callControlId }
      -- Transition to ended if not already terminal
      let fsmA : StateMachine :=
        if ¬ call.fsm.isTerminal ∧ call.fsm.canTransition ending then
          { state := ending, history := call.fsm.history ++ [(call.fsm.state, ending, now)] }
        else call.fsm
      let trA : List CMAction :=
        if ¬ call.fsm.isTerminal ∧ call.fsm.canTransition ending then
          [CMAction.fsmStep call.fsm.state ending]
        else []
      let fsmB : StateMachine :=
        if ¬ call.fsm.isTerminal ∧ fsmA.canTransition ended then
          { state := ended, history := fsmA.history ++ [(fsmA.state, ended, now)] }
        else fsmA
      let trB : List CMAction :=
        if ¬ call.fsm.isTerminal ∧ fsmA.canTransition ended then
          [CMAction.fsmStep fsmA.state ended]
        else []
      let updRecord := { call.record with
        state := fsmB.state
        endedAt := some now
        endReason := some reason
        durationMs := some (match call.record.connectedAt with
          | some c => now - c
          | none => 0) }
      let trHangup := if ¬ skipTelnyxHangup ∧ hasTelnyx then
          [CMAction.telnyxHangup callControlId] else []
      (st1,
        CMAction.removeFromRegistry callControlId :: trA ++ trB ++ trHangup
          ++ [CMAction.bridgeCleanup callControlId,
              CMAction.persistUpdate updRecord.id,
              CMAction.emitEnded updRecord.id])

/-! ## Webhook handler (src/webhook-handler.ts)

The HMAC-SHA256 primitive from node:crypto is an external collaborator
and is abstracted as a function parameter producing the hex digest
string (its real output is always 64 lowercase hex characters). JSON
parsing and the post-verification event dispatch are likewise
parameters, which lets the theorems state that a failed verification
returns 401 regardless of how the body would parse or dispatch. -/

/-- Value of one hex digit, or none for a non-hex character. -/
def hexDigitVal (c : Char) : Option Nat :=
  if '0' ≤ c ∧ c ≤ '9' then some (c.toNat - '0'.toNat)
  else if 'a' ≤ c ∧ c ≤ 'f' then some (c.toNat - 'a'.toNat + 10)
  else if 'A' ≤ c ∧ c ≤ 'F' then some (c.toNat - 'A'.toNat + 10)
  else none

/-- Node Buffer.from(s, "hex"): decode hex pairs left to right,
truncating at the first invalid character (and dropping a trailing
lone digit). -/
def decodeHexLenient : List Char → List Nat
  | c1 :: c2 :: rest =>
      match hexDigitVal c1, hexDigitVal c2 with
      | some hi, some lo => (16 * hi + lo) :: decodeHexLenient rest
      | _, _ => []
  | _ => []

/-- A string is well-formed hex: even length, hex digits only. -/
def isValidHex (s : String) : Bool :=
  s.length % 2 = 0 && s.data.all (fun c => (hexDigitVal c).isSome)

/-- verifyWebhookSignature: skip when no secret is configured; reject
when signature or timestamp is missing; else compare the hex-decoded
signature with the hex-decoded HMAC digest of timestamp.rawBody.
timingSafeEqual throws on a length mismatch, which the source catches
and maps to false; on equal lengths it returns value equality. -/
def verifyWebhookSignature (hmacHex : String → String → String)
    (secret : Option String) (rawBody : String)
    (signature timestamp : Option String) : Bool :=
  match secret with
  | none => true
  | some sec =>
      match signature, timestamp with
      | some sig, some ts =>
          let payload := ts ++ "." ++ rawBody
          let expected := hmacHex sec payload
          let ea := decodeHexLenient expected.data
          let sa := decodeHexLenient sig.data
          if ea.length = sa.length then ea == sa else false
      | _, _ => false

/-- Header values: a string, an array of strings, or absent. -/
inductive HeaderVal
  | str (s : String)
  | arr (l : List String)
deriving DecidableEq, Repr

/-- headers[k] followed by Array.isArray(v) ? v[0] : v. -/
def headerGet (headers : List (String × HeaderVal)) (k : String) : Option String :=
  match headers.lookup k with
  | none => none
  | some (.str s) => some s
  | some (.arr l) => l.head?

/-- HTTP result of the webhook entry point: status plus the error body
string when one is produced by this layer. -/
structure WebhookResponse where
  status : Nat
  body : Option String
deriving DecidableEq, Repr

/-- Minimal stand-in for a parsed TelnyxWebhookEvent; its content is
only ever passed on to the dispatch parameter. -/
structure ParsedEvent where
  eventType : String
  callControlId : String
deriving DecidableEq, Repr

/-- handleWebhookRequest: extract the signature headers, verify, then
parse the JSON body and dispatch. parseJson none models a JSON.parse
throw. -/
def handleWebhookRequest (hmacHex : String → String → String)
    (parseJson : String → Option ParsedEvent)
    (dispatch : ParsedEvent → WebhookResponse)
    (secret : Option String) (rawBody : String)
    (headers : List (String × HeaderVal)) : WebhookResponse :=
  let sig := headerGet headers "telnyx-signature-ed25519"
  let ts := headerGet headers "telnyx-timestamp"
  if ¬ verifyWebhookSignature hmacHex secret rawBody sig ts then
    { status := 401, body := some "Invalid webhook signature" }
  else
    match parseJson rawBody with
    | none => { status := 400, body := some "Invalid JSON body" }
    | some ev => dispatch ev

/-! ## Helper lemmas -/

theorem resample_len (input : List Int) (f t : Nat) (h : f ≠ t) :
    (resample input f t).length = ⌊(input.length : ℚ) * ((t : ℚ) / (f : ℚ))⌋₊ := by
  unfold resample
  rw [if_neg h]
  rw [List.length_map, List.length_range]

theorem mulaw_zero_roundtrip : mulawDecodeTable (encodeMulaw 0) = 0 := by decide

theorem lookup_mapDelete (m : List (String × ActiveCall)) (k : String) :
    (mapDelete m k).lookup k = none := by
  induction m with
  | nil => rfl
  | cons p t ih =>
      by_cases h : p.1 = k
      · simpa [mapDelete, h] using ih
      · have hk : (k == p.1) = false := by
          simp only [beq_eq_false_iff_ne]
          exact fun e => h e.symm
        simp only [mapDelete, List.filter_cons, decide_not] at ih ⊢
        simp only [show decide (p.1 = k) = false by simpa using h, Bool.not_false, if_pos]
        simp only [List.lookup, hk]
        exact ih

theorem lookup_mapSet_self (m : List (String × ActiveCall)) (k : String) (v : ActiveCall) :
    (mapSet m k v).lookup k = some v := by
  unfold mapSet
  by_cases h : (m.lookup k).isSome
  · rw [if_pos h]
    induction m with
    | nil => simp at h
    | cons p t ih =>
        by_cases hp : p.1 = k
        · simp only [List.map_cons]
          rw [if_pos hp]
          simp [List.lookup]
        · have hk : (k == p.1) = false := by
            simp only [beq_eq_false_iff_ne]
            exact fun e => hp e.symm
          simp only [List.map_cons, if_neg hp]
          simp only [List.lookup, hk] at h ⊢
          exact ih h
  · rw [if_neg h]
    induction m with
    | nil => simp [List.lookup]
    | cons p t ih =>
        by_cases hp : p.1 = k
        · exfalso; apply h; simp [List.lookup, hp]
        · have hk : (k == p.1) = false := by
            simp only [beq_eq_false_iff_ne]
            exact fun e => hp e.symm
          simp only [List.cons_append, List.lookup, hk] at h ⊢
          exact ih h

theorem lookup_map_replace (t : List (String × ActiveCall)) (k k2 : String) (v : ActiveCall)
    (h : k2 ≠ k) :
    (t.map (fun p => if p.1 = k then (k, v) else p)).lookup k2 = t.lookup k2 := by
  induction t with
  | nil => rfl
  | cons p u ih =>
      simp only [List.map_cons]
      by_cases hp : p.1 = k
      · rw [if_pos hp]
        have hk2k : (k2 == k) = false := by simp [beq_eq_false_iff_ne, h]
        have hk2p : (k2 == p.1) = false := by rw [hp]; exact hk2k
        simp only [List.lookup, hk2k, hk2p, ih]
      · rw [if_neg hp]
        simp only [List.lookup]
        cases hpe : (k2 == p.1) with
        | true => rfl
        | false => exact ih

theorem lookup_append_single_ne (t : List (String × ActiveCall)) (k k2 : String) (v : ActiveCall)
    (h : k2 ≠ k) : (t ++ [(k, v)]).lookup k2 = t.lookup k2 := by
  have hk : (k2 == k) = false := by
    simp only [beq_eq_false_iff_ne]
    exact h
  induction t with
  | nil => simp [List.lookup, hk]
  | cons p u ih =>
      simp only [List.cons_append, List.lookup]
      cases hpe : (k2 == p.1) with
      | true => rfl
      | false => exact ih

theorem lookup_mapSet_ne (m : List (String × ActiveCall)) (k k2 : String) (v : ActiveCall)
    (h : k2 ≠ k) : (mapSet m k v).lookup k2 = m.lookup k2 := by
  unfold mapSet
  by_cases hs : (m.lookup k).isSome
  · rw [if_pos hs]
    exact lookup_map_replace m k k2 v h
  · rw [if_neg hs]
    exact lookup_append_single_ne m k k2 v h

theorem mapDelete_mapSet_fresh (m : List (String × ActiveCall)) (k : String) (v : ActiveCall)
    (h : m.lookup k = none) : mapDelete (mapSet m k v) k = m := by
  unfold mapSet
  rw [if_neg (by simp [h])]
  unfold mapDelete
  rw [List.filter_append]
  simp only [List.filter_cons, decide_not]
  rw [if_neg (by simp)]
  simp only [List.filter_nil, List.append_nil]
  induction m with
  | nil => rfl
  | cons p t ih =>
      by_cases hp : p.1 = k
      · simp [List.lookup, hp] at h
      · have hk : (k == p.1) = false := by
          simp only [beq_eq_false_iff_ne]
          exact fun e => hp e.symm
        simp only [List.lookup, hk] at h
        rw [List.filter_cons]
        rw [if_pos (by simpa using hp)]
        rw [ih h]

/-! ## Claim theorems -/

/-- Claim C3: canTransition matches the §4.1 transition table exactly
(ringing→{answering, ending, failed}, answering→{connected, ending,
failed}, connected→{hold, ending, failed}, hold→{connected, ending,
failed}, ending→{ended, failed}, ended→{}, failed→{}); transition
mutates the state and appends (from, to, timestamp) to the history
when the transition is permitted, and fails with an InvalidTransition
error otherwise — in particular transition from a terminal state
(ended, failed) always fails. -/
theorem callStateMachine_table_and_transition :
    (∀ s tgt : CallState, canTransitionFrom s tgt = true ↔
      ((s = ringing ∧ (tgt = answering ∨ tgt = ending ∨ tgt = failed)) ∨
       (s = answering ∧ (tgt = connected ∨ tgt = ending ∨ tgt = failed)) ∨
       (s = connected ∧ (tgt = hold ∨ tgt = ending ∨ tgt = failed)) ∨
       (s = hold ∧ (tgt = connected ∨ tgt = ending ∨ tgt = failed)) ∨
       (s = ending ∧ (tgt = ended ∨ tgt = failed)))) ∧
    (∀ (m : StateMachine) (tgt : CallState),
      m.canTransition tgt = canTransitionFrom m.state tgt) ∧
    (∀ (m : StateMachine) (tgt : CallState) (now : Int),
      m.canTransition tgt = true →
        m.transition tgt now =
          .ok { state := tgt, history := m.history ++ [(m.state, tgt, now)] }) ∧
    (∀ (m : StateMachine) (tgt : CallState) (now : Int),
      m.canTransition tgt = false → ∃ e, m.transition tgt now = .error e) ∧
    (∀ (m : StateMachine) (tgt : CallState) (now : Int),
      m.isTerminal = true → ∃ e, m.transition tgt now = .error e) := by
  refine ⟨by decide, fun m tgt => rfl, ?_, ?_, ?_⟩
  · intro m tgt now h
    unfold StateMachine.transition
    rw [if_pos h]
  · intro m tgt now h
    unfold StateMachine.transition
    rw [if_neg (by simp [h])]
    exact ⟨_, rfl⟩
  · intro m tgt now h
    have hc : m.canTransition tgt = false := by
      rcases m with ⟨s, hist⟩
      cases s <;>
        simp_all [StateMachine.isTerminal, StateMachine.canTransition, VALID_TRANSITIONS]
    unfold StateMachine.transition
    rw [if_neg (by simp [hc])]
    exact ⟨_, rfl⟩

/-- Witness for C3 at concrete inputs. -/
theorem callStateMachine_table_and_transition_witness :
    (canTransitionFrom ringing answering = true ↔
      ((ringing = ringing ∧ (answering = answering ∨ answering = ending ∨ answering = failed)) ∨
       (ringing = answering ∧ (answering = connected ∨ answering = ending ∨ answering = failed)) ∨
       (ringing = connected ∧ (answering = hold ∨ answering = ending ∨ answering = failed)) ∨
       (ringing = hold ∧ (answering = connected ∨ answering = ending ∨ answering = failed)) ∨
       (ringing = ending ∧ (answering = ended ∨ answering = failed)))) ∧
    (StateMachine.transition ⟨ringing, []⟩ answering 5 =
      .ok { state := answering, history := [(ringing, answering, 5)] }) ∧
    (∃ e, StateMachine.transition ⟨connected, []⟩ answering 5 = .error e) ∧
    (∃ e, StateMachine.transition ⟨ended, []⟩ ending 5 = .error e) := by
  refine ⟨callStateMachine_table_and_transition.1 ringing answering, ?_, ?_, ?_⟩
  · have h := callStateMachine_table_and_transition.2.2.1 ⟨ringing, []⟩ answering 5 (by decide)
    simpa using h
  · exact callStateMachine_table_and_transition.2.2.2.1 ⟨connected, []⟩ answering 5 (by decide)
  · exact callStateMachine_table_and_transition.2.2.2.2 ⟨ended, []⟩ ending 5 (by decide)

/-- Claim C8: resampling n 16-bit samples from 8000 Hz to 16000 Hz
yields exactly 2n samples, 16000 Hz to 8000 Hz yields n/2 samples, and
equal source and target rates return the input buffer itself. -/
theorem resample_length_law :
    (∀ input : List Int, (resample input 8000 16000).length = 2 * input.length) ∧
    (∀ input : List Int, (resample input 16000 8000).length = input.length / 2) ∧
    (∀ (input : List Int) (r : Nat), resample input r r = input) := by
  refine ⟨?_, ?_, ?_⟩
  · intro input
    rw [resample_len input 8000 16000 (by decide)]
    rw [show ((16000 : Nat) : ℚ) / ((8000 : Nat) : ℚ) = ((2 : ℕ) : ℚ) by norm_num]
    rw [← Nat.cast_mul, Nat.floor_natCast]
    ring
  · intro input
    rw [resample_len input 16000 8000 (by decide)]
    rw [show ((8000 : Nat) : ℚ) / ((16000 : Nat) : ℚ) = 1 / ((2 : ℕ) : ℚ) by norm_num]
    rw [show ((input.length : ℚ) * (1 / ((2 : ℕ) : ℚ))) = (input.length : ℚ) / ((2 : ℕ) : ℚ) by ring]
    rw [Nat.floor_div_nat, Nat.floor_natCast]
  · intro input r
    unfold resample
    rw [if_pos rfl]

/-- Claim C9: μ-law round trip on silence — encoding an all-zero
16-bit buffer with pcmToMulaw and decoding with mulawToPcm yields
samples of magnitude below 1000 (in fact exactly zero samples). -/
theorem mulaw_roundtrip_silence (l : List Int) (h : l.all (fun s => s == 0) = true) :
    (mulawToPcm (pcmToMulaw l)).all (fun s => decide (s.natAbs < 1000)) = true := by
  induction l with
  | nil => rfl
  | cons a t ih =>
      simp only [List.all_cons, Bool.and_eq_true, beq_iff_eq] at h
      obtain ⟨ha, ht⟩ := h
      subst ha
      simp only [mulawToPcm, pcmToMulaw, List.map_cons, List.all_cons, Bool.and_eq_true]
      exact ⟨by decide, ih ht⟩

/-- Witness for C9: a concrete three-sample silence buffer. -/
theorem mulaw_roundtrip_silence_witness :
    ([0, 0, 0] : List Int).all (fun s => s == 0) = true ∧
    (mulawToPcm (pcmToMulaw [0, 0, 0])).all (fun s => decide (s.natAbs < 1000)) = true :=
  ⟨by decide, mulaw_roundtrip_silence [0, 0, 0] (by decide)⟩

/-- Claim C4: barge-in — for a bridge that is not closed and is
playing, handling an inbound-track media chunk sets interrupted=true
and playing=false in that same invocation, and in the action trace the
playback interruption strictly precedes the forwarding of the decoded,
resampled chunk to the STT session. -/
theorem bargein_interrupts_before_stt (cfg : AudioBridgeConfig) (sttAvailable : Bool)
    (b : BridgeState) (bytes : List Nat)
    (hclosed : b.closed = false) (hplaying : b.playing = true) :
    (handleMediaMessage cfg sttAvailable b (.media .inbound (some bytes))).1.interrupted = true ∧
    (handleMediaMessage cfg sttAvailable b (.media .inbound (some bytes))).1.playing = false ∧
    (handleMediaMessage cfg sttAvailable b (.media .inbound (some bytes))).2 =
      .interruptPlayback ::
        (if b.sttActive then
          [.sendSTT (resample (mulawToPcm bytes) cfg.telnyxSampleRate 16000)]
        else []) := by
  simp [handleMediaMessage, hclosed, hplaying]

/-- Witness for C4: a playing, open bridge receiving one inbound byte. -/
theorem bargein_interrupts_before_stt_witness :
    (handleMediaMessage ⟨8000⟩ true
        ⟨none, true, true, false, false, false⟩ (.media .inbound (some [255]))).1.interrupted
        = true ∧
    (handleMediaMessage ⟨8000⟩ true
        ⟨none, true, true, false, false, false⟩ (.media .inbound (some [255]))).1.playing
        = false ∧
    (handleMediaMessage ⟨8000⟩ true
        ⟨none, true, true, false, false, false⟩ (.media .inbound (some [255]))).2 =
      .interruptPlayback ::
        (if (true : Bool) then
          [.sendSTT (resample (mulawToPcm [255]) 8000 16000)]
        else []) :=
  bargein_interrupts_before_stt ⟨8000⟩ true ⟨none, true, true, false, false, false⟩ [255]
    rfl rfl

/-- Claim C5: when the active-call count is at or above the configured
maximum, registerInboundCall returns a rejection (null) and leaves the
registry unchanged — no handle added, no record persisted, no "call
started" event emitted (the action trace is empty). -/
theorem register_at_capacity_rejects (st : CMState)
    (callControlId callLegId fromNum toNum tenantId newCallId : String) (now : Int)
    (recordByDefault persistOk emitOk : Bool)
    (h : st.maxConcurrent ≤ st.activeCalls.length) :
    registerInboundCall st callControlId callLegId fromNum toNum tenantId newCallId now
      recordByDefault persistOk emitOk = (st, none, []) := by
  unfold registerInboundCall
  rw [if_pos (by simp [canAcceptCall]; omega)]

/-- Witness for C5: one active call with maxConcurrent = 1. -/
theorem register_at_capacity_rejects_witness :
    (let c : ActiveCall :=
      { record := freshRecord "id1" "cc1" "leg1" "inbound" "+1" "+2" "t" 0 false,
        fsm := { state := ringing, history := [] } }
     let st : CMState := { activeCalls := [("cc1", c)], maxConcurrent := 1 }
     registerInboundCall st "cc2" "leg2" "+3" "+4" "t" "id2" 7 false true true
       = (st, none, [])) :=
  register_at_capacity_rejects _ "cc2" "leg2" "+3" "+4" "t" "id2" 7 false true true
    (by decide)

/-- Claim C2: if the repository insert during registerInboundCall
fails, the handle is removed from the registry (the registry is
restored to its prior value), the audio bridge is torn down, and the
failure is surfaced to the caller as the null (none) rejection return
— the call is not left tracked without a durable record. -/
theorem register_persist_failure_cleanup (st : CMState)
    (callControlId callLegId fromNum toNum tenantId newCallId : String) (now : Int)
    (recordByDefault emitOk : Bool)
    (hcap : canAcceptCall st = true)
    (hfresh : st.activeCalls.lookup callControlId = none) :
    registerInboundCall st callControlId callLegId fromNum toNum tenantId newCallId now
      recordByDefault false emitOk = (st, none, [.bridgeCleanup callControlId]) := by
  unfold registerInboundCall
  rw [if_neg (by simp [hcap])]
  simp only [Bool.false_eq_true, if_false]
  rw [mapDelete_mapSet_fresh _ _ _ hfresh]

/-- Witness for C2: empty registry, insert fails. -/
theorem register_persist_failure_cleanup_witness :
    (let st : CMState := { activeCalls := [], maxConcurrent := 10 }
     registerInboundCall st "cc1" "leg1" "+1" "+2" "t" "id1" 3 false false true
       = (st, none, [.bridgeCleanup "cc1"])) :=
  register_persist_failure_cleanup _ "cc1" "leg1" "+1" "+2" "t" "id1" 3 false true
    (by decide) (by decide)

/-- Claim C10: initiateOutboundCall performs no cleanup on persistence
failure — when the repository insert fails after the handle was added,
the error propagates, the handle remains registered (so it counts
against the cap), the bridge is not torn down, and no "call started"
event is emitted (the action trace is empty). -/
theorem outbound_persist_failure_keeps_handle (st : CMState)
    (toNum fromNum tenantId callControlId callLegId newCallId : String) (now : Int)
    (recordByDefault : Bool)
    (hcap : canAcceptCall st = true) :
    (initiateOutboundCall st toNum fromNum tenantId callControlId callLegId newCallId now
        recordByDefault false).1.activeCalls.lookup callControlId =
      some { record := freshRecord newCallId callControlId callLegId "outbound" fromNum toNum
              tenantId now recordByDefault,
             fsm := { state := ringing, history := [] } } ∧
    (initiateOutboundCall st toNum fromNum tenantId callControlId callLegId newCallId now
        recordByDefault false).2.1 = .error "insert failed" ∧
    (initiateOutboundCall st toNum fromNum tenantId callControlId callLegId newCallId now
        recordByDefault false).2.2 = [] := by
  unfold initiateOutboundCall
  rw [if_neg (by simp [hcap])]
  refine ⟨?_, rfl, rfl⟩
  exact lookup_mapSet_self _ _ _

/-- Witness for C10: empty registry, insert fails. -/
theorem outbound_persist_failure_keeps_handle_witness :
    (let st : CMState := { activeCalls := [], maxConcurrent := 10 }
     (initiateOutboundCall st "+2" "+1" "t" "cc1" "leg1" "id1" 3 false false).1.activeCalls.lookup
        "cc1" =
      some { record := freshRecord "id1" "cc1" "leg1" "outbound" "+1" "+2" "t" 3 false,
             fsm := { state := ringing, history := [] } } ∧
     (initiateOutboundCall st "+2" "+1" "t" "cc1" "leg1" "id1" 3 false false).2.1
        = .error "insert failed" ∧
     (initiateOutboundCall st "+2" "+1" "t" "cc1" "leg1" "id1" 3 false false).2.2 = []) :=
  outbound_persist_failure_keeps_handle _ "+2" "+1" "t" "cc1" "leg1" "id1" 3 false (by decide)

/-- Claim C6: transitionCall is total (modelled as a total function —
it never throws): a no-op for an unknown ID, a no-op for an illegal
transition, on a successful transition to connected it sets
connectedAt when unset, an already-set connectedAt is never changed,
and the invariant record.state = fsm.state is preserved by every
invocation. -/
theorem transitionCall_total_safe (st : CMState) (callControlId : String)
    (newState : CallState) (now : Int) :
    (st.activeCalls.lookup callControlId = none →
      transitionCall st callControlId newState now = st) ∧
    (∀ c, st.activeCalls.lookup callControlId = some c →
      c.fsm.canTransition newState = false →
      transitionCall st callControlId newState now = st) ∧
    (∀ c, st.activeCalls.lookup callControlId = some c →
      c.fsm.canTransition newState = true → newState = connected →
      c.record.connectedAt = none →
      ∃ c2, (transitionCall st callControlId newState now).activeCalls.lookup callControlId
          = some c2 ∧ c2.record.connectedAt = some now) ∧
    (∀ c tm, st.activeCalls.lookup callControlId = some c →
      c.record.connectedAt = some tm →
      ∃ c2, (transitionCall st callControlId newState now).activeCalls.lookup callControlId
          = some c2 ∧ c2.record.connectedAt = some tm) ∧
    ((∀ k c, st.activeCalls.lookup k = some c → c.record.state = c.fsm.state) →
      ∀ k c2, (transitionCall st callControlId newState now).activeCalls.lookup k = some c2 →
        c2.record.state = c2.fsm.state) := by
  refine ⟨?_, ?_, ?_, ?_, ?_⟩
  · intro h
    simp [transitionCall, h]
  · intro c h hc
    simp [transitionCall, h, hc]
  · intro c h hc hconn hunset
    simp only [transitionCall, h]
    rw [if_neg (by simp [hc])]
    refine ⟨_, lookup_mapSet_self _ _ _, ?_⟩
    simp [hconn, hunset]
  · intro c tm h hset
    by_cases hc : c.fsm.canTransition newState = true
    · simp only [transitionCall, h]
      rw [if_neg (by simp [hc])]
      refine ⟨_, lookup_mapSet_self _ _ _, ?_⟩
      by_cases hconn : newState = connected
      · simp [hconn, hset]
      · simp [hconn, hset]
    · have hcf : c.fsm.canTransition newState = false := by simpa using hc
      simp only [transitionCall, h]
      rw [if_pos (by simp [hcf])]
      exact ⟨c, h, hset⟩
  · intro hinv k c2 h2
    by_cases hk : st.activeCalls.lookup callControlId = none
    · rw [(by simp [transitionCall, hk] :
          transitionCall st callControlId newState now = st)] at h2
      exact hinv k c2 h2
    · obtain ⟨c, hc⟩ := Option.ne_none_iff_exists'.mp hk
      by_cases htr : c.fsm.canTransition newState = true
      · by_cases hkk : k = callControlId
        · subst hkk
          simp only [transitionCall, hc] at h2
          rw [if_neg (by simp [htr])] at h2
          rw [lookup_mapSet_self] at h2
          cases h2
          by_cases hcond : newState = connected ∧
              ({ c.record with state := newState } : CallRecord).connectedAt = (none : Option Int)
          · simp [if_pos hcond]
          · simp [if_neg hcond]
        · simp only [transitionCall, hc] at h2
          rw [if_neg (by simp [htr])] at h2
          rw [lookup_mapSet_ne _ _ _ _ hkk] at h2
          exact hinv k c2 h2
      · have htr2 : c.fsm.canTransition newState = false := by simpa using htr
        simp only [transitionCall, hc] at h2
        rw [if_pos (by simp [htr2])] at h2
        exact hinv k c2 h2

/-- Witness for C6: unknown-ID no-op and first transition into
connected on an answering call. -/
theorem transitionCall_total_safe_witness :
    (let c : ActiveCall :=
      { record := { freshRecord "id1" "cc1" "leg1" "inbound" "+1" "+2" "t" 0 false with
          state := answering },
        fsm := { state := answering, history := [] } }
     let st : CMState := { activeCalls := [("cc1", c)], maxConcurrent := 10 }
     transitionCall st "nope" connected 3 = st ∧
     ∃ c2, (transitionCall st "cc1" connected 3).activeCalls.lookup "cc1" = some c2 ∧
       c2.record.connectedAt = some 3) := by
  refine ⟨(transitionCall_total_safe _ "nope" connected 3).1 (by decide), ?_⟩
  exact (transitionCall_total_safe _ "cc1" connected 3).2.2.1 _ rfl (by decide)
    rfl (by decide)

theorem endCall_unknown_noop (st : CMState) (callControlId reason : String) (now : Int)
    (skip hasTelnyx : Bool) (h : st.activeCalls.lookup callControlId = none) :
    endCall st callControlId reason now skip hasTelnyx = (st, []) := by
  simp [endCall, h]

/-- Claim C1: endCall is idempotent — the handle removal is the very
first step of the action trace (before any state transition, hangup,
bridge cleanup, persistence update, or event emission); an invocation
for an unknown ID is a no-op; a second invocation for the same call is
a no-op; and two invocations together produce exactly one "call ended"
event and exactly one persistence update. -/
theorem endCall_idempotent (st : CMState) (callControlId reason reason2 : String)
    (now now2 : Int) (skip skip2 hasTelnyx hasTelnyx2 : Bool) :
    (st.activeCalls.lookup callControlId = none →
      endCall st callControlId reason now skip hasTelnyx = (st, [])) ∧
    (∀ c, st.activeCalls.lookup callControlId = some c →
      ((endCall st callControlId reason now skip hasTelnyx).2.head? =
        some (.removeFromRegistry callControlId)) ∧
      ((endCall st callControlId reason now skip hasTelnyx).1.activeCalls.lookup callControlId
        = none) ∧
      (endCall (endCall st callControlId reason now skip hasTelnyx).1 callControlId reason2
          now2 skip2 hasTelnyx2 =
        ((endCall st callControlId reason now skip hasTelnyx).1, [])) ∧
      (((endCall st callControlId reason now skip hasTelnyx).2 ++
        (endCall (endCall st callControlId reason now skip hasTelnyx).1 callControlId reason2
          now2 skip2 hasTelnyx2).2).countP CMAction.isEmitEnded = 1) ∧
      (((endCall st callControlId reason now skip hasTelnyx).2 ++
        (endCall (endCall st callControlId reason now skip hasTelnyx).1 callControlId reason2
          now2 skip2 hasTelnyx2).2).countP CMAction.isPersistUpdate = 1)) := by
  refine ⟨endCall_unknown_noop st callControlId reason now skip hasTelnyx, ?_⟩
  intro c h
  have hdel : (endCall st callControlId reason now skip hasTelnyx).1.activeCalls.lookup
      callControlId = none := by
    simp only [endCall, h]
    exact lookup_mapDelete st.activeCalls callControlId
  have hsecond := endCall_unknown_noop (endCall st callControlId reason now skip hasTelnyx).1
    callControlId reason2 now2 skip2 hasTelnyx2 hdel
  refine ⟨?_, hdel, hsecond, ?_, ?_⟩
  · simp only [endCall, h]
    rfl
  · rw [hsecond]
    simp only [endCall, h]
    split_ifs <;>
      simp [List.countP_append, List.countP_cons, CMAction.isEmitEnded]
  · rw [hsecond]
    simp only [endCall, h]
    split_ifs <;>
      simp [List.countP_append, List.countP_cons, CMAction.isPersistUpdate]

/-- Witness for C1: a registered connected call ended twice. -/
theorem endCall_idempotent_witness :
    (let c : ActiveCall :=
      { record := freshRecord "id1" "cc1" "leg1" "inbound" "+1" "+2" "t" 0 false,
        fsm := { state := connected, history := [] } }
     let st : CMState := { activeCalls := [("cc1", c)], maxConcurrent := 10 }
     ((endCall st "cc1" "hangup" 9 true true).2.head? =
        some (.removeFromRegistry "cc1")) ∧
     ((endCall st "cc1" "hangup" 9 true true).1.activeCalls.lookup "cc1" = none) ∧
     (endCall (endCall st "cc1" "hangup" 9 true true).1 "cc1" "hangup" 10 true true =
        ((endCall st "cc1" "hangup" 9 true true).1, [])) ∧
     (((endCall st "cc1" "hangup" 9 true true).2 ++
        (endCall (endCall st "cc1" "hangup" 9 true true).1 "cc1" "hangup" 10
          true true).2).countP CMAction.isEmitEnded = 1) ∧
     (((endCall st "cc1" "hangup" 9 true true).2 ++
        (endCall (endCall st "cc1" "hangup" 9 true true).1 "cc1" "hangup" 10
          true true).2).countP CMAction.isPersistUpdate = 1)) :=
  (endCall_idempotent _ "cc1" "hangup" "hangup" 9 10 true true true true).2 _ rfl

open VoiceCall

/-- Claim C7 counterexample: with a signing secret configured, a
malformed-hex signature built by appending non-hex characters to the
correct digest is accepted — Node hex decoding truncates at the first
invalid character, so the decoded bytes match the digest, verification
returns true, and the handler proceeds to JSON parsing (here a parse
failure gives 400, not the claimed 401 rejection). -/
theorem webhook_malformed_hex_accepted_cex :
    (isValidHex (String.mk (List.replicate 64 '0' ++ ['z', 'z'])) = false) ∧
    (verifyWebhookSignature (fun _ _ => String.mk (List.replicate 64 '0'))
      (some "secret") "body"
      (some (String.mk (List.replicate 64 '0' ++ ['z', 'z']))) (some "123") = true) ∧
    ((handleWebhookRequest (fun _ _ => String.mk (List.replicate 64 '0'))
        (fun _ => none) (fun _ => { status := 200, body := none })
        (some "secret") "body"
        [("telnyx-signature-ed25519", .str (String.mk (List.replicate 64 '0' ++ ['z', 'z']))),
         ("telnyx-timestamp", .str "123")]).status = 400) :=
  ⟨by decide, by decide, by decide⟩

/-- Claim C7 (amended): when no secret is configured verification is
skipped entirely; with a secret, a missing signature header or missing
timestamp header yields 401; a signature whose leniently hex-decoded
bytes differ from the hex-decoded HMAC digest of timestamp.rawBody
yields 401; and a failed verification returns 401 for every JSON
parser and dispatcher — the body is parsed only after verification
succeeds. -/
theorem webhook_auth_amended (hmacHex : String → String → String)
    (parseJson : String → Option ParsedEvent) (dispatch : ParsedEvent → WebhookResponse)
    (sec rawBody : String) (headers : List (String × HeaderVal)) :
    (∀ sig ts, verifyWebhookSignature hmacHex none rawBody sig ts = true) ∧
    (headerGet headers "telnyx-signature-ed25519" = none →
      (handleWebhookRequest hmacHex parseJson dispatch (some sec) rawBody headers).status
        = 401) ∧
    (headerGet headers "telnyx-timestamp" = none →
      (handleWebhookRequest hmacHex parseJson dispatch (some sec) rawBody headers).status
        = 401) ∧
    (∀ sig ts, headerGet headers "telnyx-signature-ed25519" = some sig →
      headerGet headers "telnyx-timestamp" = some ts →
      decodeHexLenient sig.data ≠
        decodeHexLenient (hmacHex sec (ts ++ "." ++ rawBody)).data →
      handleWebhookRequest hmacHex parseJson dispatch (some sec) rawBody headers =
        { status := 401, body := some "Invalid webhook signature" }) ∧
    (verifyWebhookSignature hmacHex (some sec) rawBody
        (headerGet headers "telnyx-signature-ed25519")
        (headerGet headers "telnyx-timestamp") = false →
      ∀ (parse2 : String → Option ParsedEvent) (dispatch2 : ParsedEvent → WebhookResponse),
        handleWebhookRequest hmacHex parse2 dispatch2 (some sec) rawBody headers =
          { status := 401, body := some "Invalid webhook signature" }) := by
  refine ⟨fun sig ts => rfl, ?_, ?_, ?_, ?_⟩
  · intro hsig
    cases hts : headerGet headers "telnyx-timestamp" <;>
      simp [handleWebhookRequest, verifyWebhookSignature, hsig, hts]
  · intro hts
    cases hsig : headerGet headers "telnyx-signature-ed25519" <;>
      simp [handleWebhookRequest, verifyWebhookSignature, hsig, hts]
  · intro sig ts hsig hts hne
    have hv : verifyWebhookSignature hmacHex (some sec) rawBody (some sig) (some ts)
        = false := by
      simp only [verifyWebhookSignature]
      by_cases hlen : (decodeHexLenient (hmacHex sec (ts ++ "." ++ rawBody)).data).length
          = (decodeHexLenient sig.data).length
      · rw [if_pos hlen]
        exact beq_eq_false_iff_ne.mpr (fun e => hne e.symm)
      · rw [if_neg hlen]
    simp [handleWebhookRequest, hsig, hts, hv]
  · intro hv parse2 dispatch2
    simp [handleWebhookRequest, hv]

/-- Witness for the amended C7: a missing signature header and a
wrong-digest signature, both rejected with 401. -/
theorem webhook_auth_amended_witness :
    ((handleWebhookRequest (fun _ _ => "00") (fun _ => none)
        (fun _ => { status := 200, body := none }) (some "secret") "body"
        [("telnyx-timestamp", .str "123")]).status = 401) ∧
    (handleWebhookRequest (fun _ _ => "00") (fun _ => none)
        (fun _ => { status := 200, body := none }) (some "secret") "body"
        [("telnyx-signature-ed25519", .str "ff"), ("telnyx-timestamp", .str "123")] =
      { status := 401, body := some "Invalid webhook signature" }) :=
  ⟨(webhook_auth_amended (fun _ _ => "00") (fun _ => none)
      (fun _ => { status := 200, body := none }) "secret" "body"
      [("telnyx-timestamp", .str "123")]).2.1 (by decide),
   (webhook_auth_amended (fun _ _ => "00") (fun _ => none)
      (fun _ => { status := 200, body := none }) "secret" "body"
      [("telnyx-signature-ed25519", .str "ff"), ("telnyx-timestamp", .str "123")]).2.2.2.1
      "ff" "123" (by decide) (by decide) (by decide)⟩

end VoiceCall
